import Mathlib

/-!
Verification of the Smart-Calculator repository (`calculator.py`,
`custom_exceptions.py`).

The program is shallowly embedded: Python strings become `List Char`, the
`Calculator` instance state (`self.total`, `self.variables`, `self.postfix`)
becomes an explicit `CalcState`, raised exceptions become `Except` errors, and
one iteration of the `start_calculator` read-eval-print loop becomes the pure
function `processLine`, which also records what was printed and whether the
loop continues, terminates, or the program dies on an uncaught exception.

The model targets the ASCII inputs the program is used with: Python's
Unicode-aware `str.isalpha` / `str.isdigit` / `str.isalnum` and the regex
class `\w` are modelled by their ASCII restrictions, as elsewhere only ASCII
characters occur in the claims and tests.
-/

namespace SmartCalc

/-- Python strings are modelled as lists of characters. -/
abbrev Str := List Char

/-- The exceptions that can arise while processing one input line.  The first
five are the custom exception classes of `custom_exceptions.py`; the last
three model Python built-in exceptions (`KeyError`, `IndexError`,
`ValueError`) at the places where `calculator.py` does not catch them. -/
inductive Err where
  | invalidExpression
  | unknownCommand
  | invalidIdentifier
  | unknownVariable
  | invalidAssignment
  | keyError
  | indexError
  | valueError
deriving DecidableEq, Repr

/-- What the read-eval-print loop does after processing one line: read the
next line, terminate normally (`/exit`), or die on an uncaught exception. -/
inductive Ctrl where
  | next
  | exit
  | crash (e : Err)
deriving DecidableEq, Repr

/-! ## Tokenizer (`Calculator.get_infix`) -/

/-- Character classes used by the splitting pattern
`r'(\w+)?([+-]+)?([*/^]+)?([\(\)])?'` of `get_infix`. -/
inductive CClass where
  | word
  | sign
  | mulop
  | paren
  | other
deriving DecidableEq, Repr

/-- A `\w` character (ASCII restriction): letter, digit or underscore. -/
def isWordChar (c : Char) : Bool := c.isAlpha || c.isDigit || c == '_'

/-- The class of a character under the splitting pattern of `get_infix`. -/
def charClass (c : Char) : CClass :=
  if isWordChar c then .word
  else if c == '+' || c == '-' then .sign
  else if c == '*' || c == '/' || c == '^' then .mulop
  else if c == '(' || c == ')' then .paren
  else .other

/-- Classes whose characters are grouped into maximal runs by the pattern
(`\w+`, `[+-]+`, `[*/^]+`); parentheses are matched one at a time, and any
other character is left by `re.split` as a one-character field of its own. -/
def isRunClass : CClass → Bool
  | .word => true
  | .sign => true
  | .mulop => true
  | .paren => false
  | .other => false

/-- Does the (candidate) run `r` start with a character of the same class as
`c`? -/
def headSameClass (c : Char) : Str → Bool
  | [] => false
  | d :: _ => charClass d == charClass c

/-- The effective behaviour of
`[ch for ch in re.split(r'(\w+)?([+-]+)?([*/^]+)?([\(\)])?', s) if ch]`:
maximal runs of `\w` characters, of `+`/`-` characters and of `*`/`/`/`^`
characters become one field each, every parenthesis becomes a field of its
own, every character outside all four groups is likewise left as a
one-character field, and empty fields / absent groups are discarded. -/
def splitRuns : Str → List Str
  | [] => []
  | c :: rest =>
    match splitRuns rest with
    | [] => [[c]]
    | r :: rs =>
      if isRunClass (charClass c) && headSameClass c r then (c :: r) :: rs
      else [c] :: r :: rs

/-- The body of the `for i, ch in enumerate(infix)` loop of `get_infix`:
a token containing `*`, `/` or `^` with more than one character raises
`InvalidExpressionError`; a token containing `+` or `-` with more than one
character is replaced by `-` if it contains an odd number of `-`, else `+`. -/
def tokenCheck (t : Str) : Except Err Str :=
  if (t.contains '*' || t.contains '/' || t.contains '^') && t.length > 1 then
    .error .invalidExpression
  else if (t.contains '+' || t.contains '-') && t.length > 1 then
    .ok (if t.count '-' % 2 = 1 then ['-'] else ['+'])
  else .ok t

/-- Run `tokenCheck` over the token list, stopping at the first raised
exception, as the Python loop does. -/
def checkTokens : List Str → Except Err (List Str)
  | [] => .ok []
  | t :: ts =>
    match tokenCheck t with
    | .error e => .error e
    | .ok u =>
      match checkTokens ts with
      | .error e => .error e
      | .ok us => .ok (u :: us)

/-- `expression.replace(' ', '')`. -/
def dropSpaces (s : Str) : Str := s.filter (fun c => !(c == ' '))

/-- Models `Calculator.get_infix`: remove all spaces, split into fields, then
reject multi-character `*`/`/`/`^` tokens and fold multi-character sign
runs. -/
def tokenizeLine (s : Str) : Except Err (List Str) :=
  checkTokens (splitRuns (dropSpaces s))

/-! ## Infix-to-postfix converter (`Calculator.infix_to_postfix`) -/

/-- The class attribute
`priority = {'+': 1, '-': 1, '*': 2, '/': 2, '^': 3, '(': 0}`;
`none` models a `KeyError` on lookup. -/
def priority (ch : Str) : Option Nat :=
  if ch = ['+'] then some 1
  else if ch = ['-'] then some 1
  else if ch = ['*'] then some 2
  else if ch = ['/'] then some 2
  else if ch = ['^'] then some 3
  else if ch = ['('] then some 0
  else none

/-- The inner
`while len(stack) != 0 and self.priority[ch] <= self.priority[stack[-1]]`
loop: pop operators of priority at least `pch` onto the output.  A stack
entry missing from the priority table raises a `KeyError`. -/
def popWhileGE (pch : Nat) : List Str → List Str → Except Err (List Str × List Str)
  | [], out => .ok ([], out)
  | top :: rest, out =>
    match priority top with
    | none => .error .keyError
    | some pt =>
      if pch ≤ pt then popWhileGE pch rest (out ++ [top])
      else .ok (top :: rest, out)

/-- The `for ch in infix` loop of `infix_to_postfix`, with the operator stack
(head = top of stack) and the output accumulated so far.  On exhaustion the
remaining stack is popped onto the output. -/
def i2pLoop : List Str → List Str → List Str → Except Err (List Str)
  | [], stack, out => .ok (out ++ stack)
  | ch :: rest, stack, out =>
    if !ch.isEmpty && ch.all (fun c => c.isAlpha || c.isDigit) then
      i2pLoop rest stack (out ++ [ch])
    else if ch = ['('] then
      i2pLoop rest (ch :: stack) out
    else if ch = [')'] then
      let popped := stack.takeWhile (fun t => !(t == ['(']))
      match stack.dropWhile (fun t => !(t == ['('])) with
      | [] => .error .invalidExpression
      | _ :: stack' => i2pLoop rest stack' (out ++ popped)
    else
      match stack with
      | [] => i2pLoop rest [ch] out
      | top :: _ =>
        match priority ch with
        | none => .error .keyError
        | some pch =>
          match priority top with
          | none => .error .keyError
          | some pt =>
            if pt < pch then i2pLoop rest (ch :: stack) out
            else
              match popWhileGE pch stack out with
              | .error e => .error e
              | .ok (stack', out') => i2pLoop rest (ch :: stack') out'

/-- Models `Calculator.infix_to_postfix`: run the loop from empty stack and
empty output, then raise `InvalidExpressionError` if a `(` is left anywhere
in the result. -/
def toPostfixTokens (infixToks : List Str) : Except Err (List Str) :=
  match i2pLoop infixToks [] [] with
  | .error e => .error e
  | .ok out => if ['('] ∈ out then .error .invalidExpression else .ok out

/-! ## Integers as decimal strings (Python `int(...)` and `str(...)`) -/

/-- Numeric value of a decimal digit character. -/
def dval (c : Char) : Nat := c.toNat - '0'.toNat

/-- Value of a string of decimal digits. -/
def digitsVal (s : Str) : Nat := s.foldl (fun acc c => acc * 10 + dval c) 0

/-- Python `str.isdigit` (ASCII restriction): nonempty and all digits. -/
def pyIsDigitStr (s : Str) : Bool := !s.isEmpty && s.all Char.isDigit

/-- Decimal digits of `n`, most significant first, by structural recursion
on a fuel argument (any `fuel ≥ n` gives the digits; `natDigits` passes `n`
itself). -/
def natDigitsF : Nat → Nat → Str
  | 0, n => [Nat.digitChar n]
  | fuel + 1, n =>
    if n < 10 then [Nat.digitChar n]
    else natDigitsF fuel (n / 10) ++ [Nat.digitChar (n % 10)]

/-- Decimal digits of a natural number, most significant first. -/
def natDigits (n : Nat) : Str := natDigitsF n n

/-- Python `str` of an integer: canonical decimal representation with a
leading `-` for negative values. -/
def intToString (n : Int) : Str :=
  if n < 0 then '-' :: natDigits n.natAbs else natDigits n.toNat

/-- Python `int(s)` on a string: an optional sign followed by a nonempty
digit string; anything else raises `ValueError` (modelled as `none`).
(Python additionally strips whitespace and allows `_` digit separators;
the calculator never feeds it such strings in the scenarios modelled.) -/
def pyInt (s : Str) : Option Int :=
  match s with
  | [] => none
  | c :: rest =>
    if c == '-' then
      if pyIsDigitStr rest then some (-(digitsVal rest : Int)) else none
    else if c == '+' then
      if pyIsDigitStr rest then some ((digitsVal rest : Int)) else none
    else
      if pyIsDigitStr (c :: rest) then some ((digitsVal (c :: rest) : Int)) else none

/-! ## Postfix evaluator (`Calculator.evaluate_postfix`) -/

/-- Python substring membership `t in s` (used by `ch in '+-*/^'`). -/
def pyInStr : Str → Str → Bool
  | t, [] => t.isEmpty
  | t, s@(_ :: rest) => t.isPrefixOf s || pyInStr t rest

/-- The string literal `'+-*/^'` of the evaluator. -/
def opsStr : Str := ['+', '-', '*', '/', '^']

/-- Integer power with a natural exponent, by structural recursion. -/
def powNat (a : Int) : Nat → Int
  | 0 => 1
  | n + 1 => powNat a n * a

/-- Python `a ** b` restricted to integers.  (For a negative exponent Python
produces a `float`; no behaviour modelled here exercises that case, so the
exponent is read through `Int.toNat`.) -/
def pyPow (a b : Int) : Int := powNat a b.toNat

/-- The value pushed by the `if ch == '+': ... elif ...` chain of the
evaluator: Python `//` is floor division, hence `Int.fdiv`.  A token that
passes the `ch in '+-*/^'` substring test without being equal to one of the
five operators matches no branch and pushes nothing. -/
def pushFor (ch : Str) (a b : Int) : List Int :=
  if ch = ['+'] then [a + b]
  else if ch = ['-'] then [a - b]
  else if ch = ['*'] then [a * b]
  else if ch = ['/'] then [Int.fdiv a b]
  else if ch = ['^'] then [pyPow a b]
  else []

/-- `try: a = stack.pop() except IndexError: a = 0`. -/
def popOr0 : List Int → Int × List Int
  | [] => (0, [])
  | a :: r => (a, r)

/-- Association-list lookup modelling `self.variables[ch]` /
`ch in self.variables`. -/
def lookupVar : List (Str × Str) → Str → Option Str
  | [], _ => none
  | (k, v) :: rest, key => if k = key then some v else lookupVar rest key

/-- The `for ch in self.postfix` loop of `evaluate_postfix`, with the value
stack (head = top).  The unguarded `b = stack.pop()` raises `IndexError` on
an empty stack; an unknown variable raises `UnknownVariableError`; a stored
variable value that `int` cannot parse would raise `ValueError`. -/
def evalLoop (vars : List (Str × Str)) : List Str → List Int → Except Err (List Int)
  | [], stack => .ok stack
  | ch :: rest, stack =>
    if pyInStr ch opsStr then
      match stack with
      | [] => .error .indexError
      | b :: s1 =>
        let p := popOr0 s1
        evalLoop vars rest (pushFor ch p.1 b ++ p.2)
    else if pyIsDigitStr ch then
      evalLoop vars rest ((digitsVal ch : Int) :: stack)
    else
      match lookupVar vars ch with
      | some v =>
        match pyInt v with
        | some n => evalLoop vars rest (n :: stack)
        | none => .error .valueError
      | none => .error .unknownVariable

/-! ## Session state and the statement-level handlers -/

/-- The mutable state of a `Calculator` object: `self.total`,
`self.variables` and `self.postfix`. -/
structure CalcState where
  total : Int
  vars : List (Str × Str)
  postfixSeq : List Str
deriving DecidableEq, Repr

/-- The state of a freshly constructed `Calculator`. -/
def initState : CalcState := ⟨0, [], []⟩

/-- Models `Calculator.evaluate_postfix` as a method: on reaching the end of
the loop the instance field `self.postfix` is reinitialised to an empty deque
and then the final unguarded `stack.pop()` is performed (raising `IndexError`
if the value stack is empty).  A mid-loop exception leaves `self.postfix`
as it was. -/
def evaluatePostfix (st : CalcState) : CalcState × Except Err Int :=
  match evalLoop st.vars st.postfixSeq [] with
  | .error e => (st, .error e)
  | .ok (r :: _) => ({ st with postfixSeq := ([] : List Str) }, .ok r)
  | .ok [] => ({ st with postfixSeq := ([] : List Str) }, .error .indexError)

/-- Models `Calculator.handle_expression`: tokenize, convert, store the
postfix sequence in `self.postfix`, evaluate, and on success store the result
in `self.total`. -/
def handleExpression (st : CalcState) (expr : Str) : CalcState × Except Err Int :=
  match tokenizeLine expr with
  | .error e => (st, .error e)
  | .ok infixToks =>
    match toPostfixTokens infixToks with
    | .error e => (st, .error e)
    | .ok p =>
      match evaluatePostfix { st with postfixSeq := p } with
      | (st2, .error e) => (st2, .error e)
      | (st2, .ok r) => ({ st2 with total := r }, .ok r)

/-- The printed messages of the five custom exception classes of
`custom_exceptions.py`.  The last three errors model Python built-ins that
the program never catches nor prints; the strings are their class names. -/
def errMsg : Err → Str
  | .invalidExpression => "Invalid expression".data
  | .unknownCommand => "Unknown command".data
  | .invalidIdentifier => "Invalid identifier".data
  | .unknownVariable => "Unknown variable".data
  | .invalidAssignment => "Invalid assignment".data
  | .keyError => "KeyError".data
  | .indexError => "IndexError".data
  | .valueError => "ValueError".data

/-- The class docstring printed by `/help` (text abbreviated: its content
plays no role in any property of interest). -/
def helpText : Str :=
  "Calculator that deals with integer values, has ability of storing variables and supports the operations + - * / ^".data

/-- Models `Calculator.handle_command`: returns the lines printed and the
sentinel value (`-1` for `/exit`, `0` for `/help`). -/
def handleCommand (cmd : Str) : Except Err (List Str × Int) :=
  if cmd = "/exit".data then .ok (["Bye!".data], -1)
  else if cmd = "/help".data then .ok ([helpText], 0)
  else .error .unknownCommand

/-- Python `expression.split('=')`. -/
def splitOnChar (sep : Char) : Str → List Str
  | [] => [[]]
  | c :: rest =>
    let r := splitOnChar sep rest
    if c == sep then [] :: r
    else
      match r with
      | h :: t => (c :: h) :: t
      | [] => [[c]]

/-- Python `s.strip(' ')`: remove spaces from both ends. -/
def stripSpaces (s : Str) : Str :=
  ((s.dropWhile (fun c => c == ' ')).reverse.dropWhile (fun c => c == ' ')).reverse

/-- Python `str.isalpha` (ASCII restriction): nonempty and all letters. -/
def pyIsAlphaStr (s : Str) : Bool := !s.isEmpty && s.all Char.isAlpha

/-- `self.variables[key] = value`: replace the binding if present, else
append it. -/
def setVar : List (Str × Str) → Str → Str → List (Str × Str)
  | [], key, v => [(key, v)]
  | (k, w) :: rest, key, v =>
    if k = key then (key, v) :: rest else (k, w) :: setVar rest key v

/-- Models `Calculator.handle_variable`: returns the updated state, the lines
printed, and the raised exception if any.  (`expression.split('=')` never
returns an empty list; the `[]` branch is unreachable and mirrors the
`IndexError` that `expression[0]` would raise.) -/
def handleVariable (st : CalcState) (expr : Str) : CalcState × List Str × Except Err Unit :=
  match splitOnChar '=' expr with
  | [] => (st, [], .error .indexError)
  | [v0] =>
    if pyIsAlphaStr (stripSpaces v0) then
      match lookupVar st.vars (stripSpaces v0) with
      | some value => (st, [value], .ok ())
      | none => (st, [], .error .unknownVariable)
    else (st, [], .error .invalidIdentifier)
  | [l, r] =>
    if pyIsAlphaStr (stripSpaces l) then
      match pyInt (match lookupVar st.vars (stripSpaces r) with
                   | some v => v
                   | none => stripSpaces r) with
      | some n =>
        ({ st with vars := setVar st.vars (stripSpaces l) (intToString n) }, [], .ok ())
      | none => (st, [], .error .invalidAssignment)
    else (st, [], .error .invalidIdentifier)
  | _ => (st, [], .error .invalidAssignment)

/-! ## The read-eval-print loop (`Calculator.start_calculator`) -/

/-- The observable outcome of one iteration of the `while True` loop of
`start_calculator` on one input line: the resulting calculator state, the
lines printed, what the loop does next, and — when an exception was caught
by one of the `except` clauses — which exception it was. -/
structure Outcome where
  state : CalcState
  printed : List Str
  ctrl : Ctrl
  caught : Option Err
deriving DecidableEq, Repr

/-- Python `str.strip()`: remove whitespace from both ends. -/
def pyStrip (s : Str) : Str :=
  ((s.dropWhile Char.isWhitespace).reverse.dropWhile Char.isWhitespace).reverse

/-- The body of the `while True` loop of `start_calculator` once the line has
been stripped: skip empty lines, and dispatch to the command path (leading
`/`), the variable path (contains `=` or is purely alphabetic) or the
expression path, with exactly the `except` clauses of the source; an
exception not listed there crashes the program. -/
def dispatch (st : CalcState) (expr : Str) : Outcome :=
  if expr = [] then ⟨st, [], .next, none⟩
  else if expr.head? = some '/' then
    match handleCommand expr with
    | .error e =>
      if e = .unknownCommand then ⟨st, [errMsg e], .next, some e⟩
      else ⟨st, [], .crash e, none⟩
    | .ok (out, v) =>
      if v = -1 then ⟨st, out, .exit, none⟩ else ⟨st, out, .next, none⟩
  else if expr.contains '=' || pyIsAlphaStr expr then
    match handleVariable st expr with
    | (st', out, .ok _) => ⟨st', out, .next, none⟩
    | (st', out, .error e) =>
      if e = .invalidIdentifier || e = .unknownVariable || e = .invalidAssignment then
        ⟨st', out ++ [errMsg e], .next, some e⟩
      else ⟨st', out, .crash e, none⟩
  else
    match handleExpression st expr with
    | (st', .ok _) => ⟨{ st' with total := 0 }, [intToString st'.total], .next, none⟩
    | (st', .error e) =>
      if e = .invalidExpression || e = .unknownVariable then
        ⟨st', [errMsg e], .next, some e⟩
      else ⟨st', [], .crash e, none⟩

/-- One iteration of `Calculator.start_calculator` on the raw input line:
`expression = input().strip()` followed by the dispatch. -/
def processLine (st : CalcState) (raw : Str) : Outcome :=
  dispatch st (pyStrip raw)

/-- Process one line starting from a fresh calculator. -/
def run1 (s : String) : Outcome := processLine initState s.data

/-! ## Helper lemmas -/

theorem contains_true_of_mem {t : Str} {x : Char} (h : x ∈ t) : t.contains x = true := by
  simpa using h

theorem contains_false_of_forall {t : Str} {x : Char} (h : ∀ c ∈ t, ¬ c = x) :
    t.contains x = false := by
  simp
  intro hx
  exact h x hx rfl

/-- `tokenCheck` can only raise `InvalidExpressionError`. -/
theorem tokenCheck_error_eq {t : Str} {e : Err} (h : tokenCheck t = .error e) :
    e = .invalidExpression := by
  unfold tokenCheck at h
  split_ifs at h <;> simp_all

/-- If some token of the list fails `tokenCheck`, the whole pass raises
`InvalidExpressionError`. -/
theorem checkTokens_error_of_mem {ts : List Str}
    (h : ∃ t ∈ ts, tokenCheck t = .error .invalidExpression) :
    checkTokens ts = .error .invalidExpression := by
  induction ts with
  | nil => rcases h with ⟨t, ht, _⟩; cases ht
  | cons a as ih =>
    rcases h with ⟨t, ht, he⟩
    rcases List.mem_cons.mp ht with h1 | h2
    · subst h1; simp [checkTokens, he]
    · cases ha : tokenCheck a with
      | error e => have := tokenCheck_error_eq ha; subst this; simp [checkTokens, ha]
      | ok u => simp [checkTokens, ha, ih ⟨t, h2, he⟩]

/-- Unfolding equation of `splitRuns` when the tail splits to nothing. -/
theorem splitRuns_cons_nil {c : Char} {rest : Str} (hr : splitRuns rest = []) :
    splitRuns (c :: rest) = [[c]] := by
  rw [splitRuns, hr]

/-- Unfolding equation of `splitRuns` when the tail splits to `r :: rs`. -/
theorem splitRuns_cons_cons {c : Char} {rest : Str} {r : Str} {rs : List Str}
    (hr : splitRuns rest = r :: rs) :
    splitRuns (c :: rest) =
      if isRunClass (charClass c) && headSameClass c r then (c :: r) :: rs
      else [c] :: r :: rs := by
  rw [splitRuns, hr]

/-- Every field produced by `splitRuns` is nonempty and consists of
characters of one single class (it is a sub-run of one maximal run). -/
theorem splitRuns_homog :
    ∀ (s : Str), ∀ t ∈ splitRuns s, t ≠ [] ∧ ∀ c ∈ t, ∀ d ∈ t, charClass c = charClass d := by
  intro s
  induction s with
  | nil => intro t ht; simp [splitRuns] at ht
  | cons c rest ih =>
    intro t ht
    cases hr : splitRuns rest with
    | nil =>
      rw [splitRuns_cons_nil hr] at ht
      simp at ht
      subst ht
      refine ⟨by simp, ?_⟩
      intro a ha b hb
      simp at ha hb; subst ha; subst hb; rfl
    | cons r rs =>
      rw [splitRuns_cons_cons hr] at ht
      by_cases hc : (isRunClass (charClass c) && headSameClass c r) = true
      · rw [if_pos hc] at ht
        rcases List.mem_cons.mp ht with h1 | h2
        · subst h1
          have hrmem : r ∈ splitRuns rest := by rw [hr]; exact List.mem_cons_self _ _
          have hrh := ih r hrmem
          have hhead : ∃ d r', r = d :: r' ∧ charClass d = charClass c := by
            cases r with
            | nil => simp [headSameClass] at hc
            | cons d r' =>
              refine ⟨d, r', rfl, ?_⟩
              have h2 := ((Bool.and_eq_true _ _).mp hc).2
              simpa [headSameClass] using h2
          rcases hhead with ⟨d, r', hrd, hdc⟩
          have hall : ∀ x ∈ c :: r, charClass x = charClass c := by
            intro x hx
            rcases List.mem_cons.mp hx with h1 | h2
            · subst h1; rfl
            · have hd_mem : d ∈ r := by rw [hrd]; exact List.mem_cons_self _ _
              have := hrh.2 x h2 d hd_mem
              rw [this, hdc]
          exact ⟨by simp, fun a ha b hb => by rw [hall a ha, hall b hb]⟩
        · exact ih t (by rw [hr]; exact List.mem_cons_of_mem _ h2)
      · rw [if_neg hc] at ht
        rcases List.mem_cons.mp ht with h1 | h2
        · subst h1
          refine ⟨by simp, ?_⟩
          intro a ha b hb
          simp at ha hb; subst ha; subst hb; rfl
        · exact ih t (by rw [hr]; exact h2)

/-- A character of class `sign` is `+` or `-`. -/
theorem charClass_eq_sign {x : Char} (h : charClass x = .sign) : x = '+' ∨ x = '-' := by
  unfold charClass at h
  split_ifs at h with h1 h2 h3 h4 <;> simp_all

/-- A character of class `mulop` is `*`, `/` or `^`. -/
theorem charClass_eq_mulop {x : Char} (h : charClass x = .mulop) :
    x = '*' ∨ x = '/' ∨ x = '^' := by
  unfold charClass at h
  split_ifs at h with h1 h2 h3 h4 <;> simp_all <;> tauto

/-- A sign run of length at least two folds to `-` exactly when it contains
an odd number of `-` characters. -/
theorem tokenCheck_signs {t : Str} (hne : t ≠ []) (hs : ∀ c ∈ t, c = '+' ∨ c = '-')
    (hlen : 2 ≤ t.length) :
    tokenCheck t = .ok (if t.count '-' % 2 = 1 then ['-'] else ['+']) := by
  have hstar : t.contains '*' = false := contains_false_of_forall
    (fun c hc => by rcases hs c hc with h | h <;> subst h <;> decide)
  have hslash : t.contains '/' = false := contains_false_of_forall
    (fun c hc => by rcases hs c hc with h | h <;> subst h <;> decide)
  have hcaret : t.contains '^' = false := contains_false_of_forall
    (fun c hc => by rcases hs c hc with h | h <;> subst h <;> decide)
  have hpm : (t.contains '+' || t.contains '-') = true := by
    cases t with
    | nil => exact absurd rfl hne
    | cons a as =>
      rcases hs a (List.mem_cons_self a as) with h | h <;> subst h <;>
        simp [contains_true_of_mem (List.mem_cons_self _ _)]
  have hgt : t.length > 1 := hlen
  have hA : ¬ ((t.contains '*' || t.contains '/' || t.contains '^') && decide (t.length > 1)) = true := by
    rw [hstar, hslash, hcaret]; simp
  have hB : ((t.contains '+' || t.contains '-') && decide (t.length > 1)) = true := by
    rw [hpm]; simpa using hgt
  unfold tokenCheck
  rw [if_neg hA, if_pos hB]

/-- A one-character token always passes `tokenCheck` unchanged. -/
theorem tokenCheck_single (c : Char) : tokenCheck [c] = .ok [c] := by
  unfold tokenCheck
  simp

/-- A run of two or more `*`/`/`/`^` characters raises
`InvalidExpressionError`. -/
theorem tokenCheck_mulops {t : Str} (hlen : 2 ≤ t.length)
    (hs : ∀ c ∈ t, c = '*' ∨ c = '/' ∨ c = '^') :
    tokenCheck t = .error .invalidExpression := by
  have hcon : (t.contains '*' || t.contains '/' || t.contains '^') = true := by
    cases t with
    | nil => simp at hlen
    | cons a as =>
      rcases hs a (List.mem_cons_self a as) with h | h | h <;> subst h <;>
        simp [contains_true_of_mem (List.mem_cons_self _ _)]
  have hgt : t.length > 1 := hlen
  unfold tokenCheck
  rw [hcon]
  simp [hgt]

/-- A maximal `*`/`/`/`^` run of length at least two anywhere in the split
fields makes the whole tokenizer raise `InvalidExpressionError`. -/
theorem tokenizeLine_error_of_mul_run {s : Str}
    (h : ∃ t ∈ splitRuns (dropSpaces s), 2 ≤ t.length ∧ ∀ c ∈ t, c = '*' ∨ c = '/' ∨ c = '^') :
    tokenizeLine s = .error .invalidExpression := by
  unfold tokenizeLine
  apply checkTokens_error_of_mem
  rcases h with ⟨t, ht, h1, h2⟩
  exact ⟨t, ht, tokenCheck_mulops h1 h2⟩

/-- Unfolding equation of `toPostfixTokens` when the loop succeeds. -/
theorem toPostfixTokens_eq_ok {infixToks out : List Str}
    (hl : i2pLoop infixToks [] [] = .ok out) :
    toPostfixTokens infixToks =
      if ['('] ∈ out then .error .invalidExpression else .ok out := by
  rw [toPostfixTokens, hl]

/-- Processing `)` with no `(` anywhere in the operator stack raises
`InvalidExpressionError` (the stack empties before a `(` is found). -/
theorem i2pLoop_rparen_no_open {toks stack out : List Str} (h : ['('] ∉ stack) :
    i2pLoop ([')'] :: toks) stack out = .error .invalidExpression := by
  have hd : stack.dropWhile (fun t => !(t == ['('])) = [] := by
    rw [List.dropWhile_eq_nil_iff]
    intro x hx
    simp
    intro he
    exact h (he ▸ hx)
  simp [i2pLoop, hd]

/-- A successful conversion never leaves a `(` in the postfix output. -/
theorem toPostfixTokens_no_open {infixToks p : List Str}
    (h : toPostfixTokens infixToks = .ok p) : ['('] ∉ p := by
  cases hl : i2pLoop infixToks [] [] with
  | error e =>
    rw [toPostfixTokens, hl] at h
    cases h
  | ok out =>
    rw [toPostfixTokens_eq_ok hl] at h
    by_cases hp : ['('] ∈ out
    · rw [if_pos hp] at h; cases h
    · rw [if_neg hp] at h
      injection h with h'
      subst h'
      exact hp

/-- On an operator token the evaluator pops `b`, then `a`, and pushes the
result of the operation (stack with at least two values). -/
theorem evalLoop_op_two {vars : List (Str × Str)} {rest : List Str} {ch : Str} {b a : Int}
    {s : List Int} (h : pyInStr ch opsStr = true) :
    evalLoop vars (ch :: rest) (b :: a :: s) = evalLoop vars rest (pushFor ch a b ++ s) := by
  rw [evalLoop, if_pos h]
  simp [popOr0]

/-- On an operator token with a one-value stack the evaluator pops `b`, the
attempted pop of `a` hits the empty stack, and `a` is taken to be `0`. -/
theorem evalLoop_op_one {vars : List (Str × Str)} {rest : List Str} {ch : Str} {b : Int}
    (h : pyInStr ch opsStr = true) :
    evalLoop vars (ch :: rest) [b] = evalLoop vars rest (pushFor ch 0 b) := by
  rw [evalLoop, if_pos h]
  simp [popOr0]

/-! ## Decimal round trip: `int(str(n)) == n` -/

theorem digitChar_isDigit {k : Nat} (h : k < 10) : (Nat.digitChar k).isDigit = true := by
  interval_cases k <;> decide

theorem dval_digitChar {k : Nat} (h : k < 10) : dval (Nat.digitChar k) = k := by
  interval_cases k <;> decide

theorem natDigitsF_ne_nil (fuel n : Nat) : natDigitsF fuel n ≠ [] := by
  cases fuel with
  | zero => simp [natDigitsF]
  | succ fuel => unfold natDigitsF; split_ifs <;> simp

theorem natDigits_ne_nil (n : Nat) : natDigits n ≠ [] := natDigitsF_ne_nil n n

theorem natDigitsF_all_digit :
    ∀ fuel n : Nat, n ≤ fuel → ∀ c ∈ natDigitsF fuel n, c.isDigit = true := by
  intro fuel
  induction fuel with
  | zero =>
    intro n hn c hc
    interval_cases n
    simp [natDigitsF] at hc
    subst hc
    decide
  | succ fuel ih =>
    intro n hn c hc
    unfold natDigitsF at hc
    split_ifs at hc with h
    · simp at hc
      subst hc
      exact digitChar_isDigit h
    · rcases List.mem_append.mp hc with h1 | h2
      · refine ih (n / 10) ?_ c h1
        have := Nat.div_lt_self (show 0 < n by omega) (show 1 < 10 by omega)
        omega
      · simp at h2
        subst h2
        exact digitChar_isDigit (Nat.mod_lt _ (by omega))

theorem natDigits_all_digit (n : Nat) : ∀ c ∈ natDigits n, c.isDigit = true :=
  natDigitsF_all_digit n n le_rfl

theorem digitsVal_append_last (s : Str) (c : Char) :
    digitsVal (s ++ [c]) = digitsVal s * 10 + dval c := by
  unfold digitsVal
  rw [List.foldl_append]
  rfl

theorem natDigitsF_val : ∀ fuel n : Nat, n ≤ fuel → digitsVal (natDigitsF fuel n) = n := by
  intro fuel
  induction fuel with
  | zero =>
    intro n hn
    interval_cases n
    decide
  | succ fuel ih =>
    intro n hn
    unfold natDigitsF
    split_ifs with h
    · simp [digitsVal, dval_digitChar h]
    · rw [digitsVal_append_last,
        ih (n / 10) (by
          have := Nat.div_lt_self (show 0 < n by omega) (show 1 < 10 by omega)
          omega),
        dval_digitChar (Nat.mod_lt _ (by omega))]
      omega

theorem digitsVal_natDigits (n : Nat) : digitsVal (natDigits n) = n :=
  natDigitsF_val n n le_rfl

theorem pyIsDigitStr_natDigits (m : Nat) : pyIsDigitStr (natDigits m) = true := by
  unfold pyIsDigitStr
  rw [Bool.and_eq_true]
  constructor
  · simp [List.isEmpty_iff, natDigits_ne_nil m]
  · rw [List.all_eq_true]
    exact natDigits_all_digit m

/-- A digit character is neither `-` nor `+`. -/
theorem isDigit_ne_sign {c : Char} (h : c.isDigit = true) : ¬ c = '-' ∧ ¬ c = '+' := by
  constructor <;> intro he <;> subst he <;> simp at h

/-- Unfolding equation of `pyInt` on a nonempty string. -/
theorem pyInt_cons (c : Char) (rest : Str) :
    pyInt (c :: rest) =
      if c == '-' then
        if pyIsDigitStr rest then some (-(digitsVal rest : Int)) else none
      else if c == '+' then
        if pyIsDigitStr rest then some ((digitsVal rest : Int)) else none
      else
        if pyIsDigitStr (c :: rest) then some ((digitsVal (c :: rest) : Int)) else none := by
  rfl

/-- Round trip: parsing the canonical decimal string of an integer gives
the integer back, so `int(...)` cannot fail on it. -/
theorem pyInt_intToString (n : Int) : pyInt (intToString n) = some n := by
  by_cases hn : n < 0
  · have : intToString n = '-' :: natDigits n.natAbs := by
      unfold intToString; rw [if_pos hn]
    rw [this, pyInt_cons]
    rw [if_pos (by decide), if_pos (pyIsDigitStr_natDigits _)]
    rw [digitsVal_natDigits]
    congr 1
    omega
  · have : intToString n = natDigits n.toNat := by
      unfold intToString; rw [if_neg hn]
    rw [this]
    cases hd : natDigits n.toNat with
    | nil => exact absurd hd (natDigits_ne_nil _)
    | cons c rest =>
      have hdig : c.isDigit = true := by
        apply natDigits_all_digit n.toNat
        rw [hd]; exact List.mem_cons_self _ _
      have hds : pyIsDigitStr (c :: rest) = true := by rw [← hd]; exact pyIsDigitStr_natDigits _
      rw [pyInt_cons]
      rw [if_neg (by simpa using (isDigit_ne_sign hdig).1),
        if_neg (by simpa using (isDigit_ne_sign hdig).2),
        if_pos hds]
      have : digitsVal (c :: rest) = n.toNat := by rw [← hd]; exact digitsVal_natDigits _
      rw [this]
      congr 1
      omega

/-! ## State-frame lemmas for the handlers -/

/-- `evaluate_postfix` never touches `self.total` or `self.variables`. -/
theorem evaluatePostfix_frame (st : CalcState) :
    (evaluatePostfix st).1.vars = st.vars ∧ (evaluatePostfix st).1.total = st.total := by
  unfold evaluatePostfix
  cases h : evalLoop st.vars st.postfixSeq [] with
  | error e => simp
  | ok stack => cases stack <;> simp

/-- A successful `evaluate_postfix` reinitialises `self.postfix` to empty. -/
theorem evaluatePostfix_ok_clears {st st2 : CalcState} {r : Int}
    (h : evaluatePostfix st = (st2, .ok r)) : st2.postfixSeq = [] := by
  unfold evaluatePostfix at h
  cases hl : evalLoop st.vars st.postfixSeq [] with
  | error e => rw [hl] at h; simp at h
  | ok stack =>
    rw [hl] at h
    cases stack with
    | nil => simp at h
    | cons a s =>
      simp at h
      rw [← h.1]

/-- `handle_expression` never changes `self.variables`. -/
theorem handleExpression_vars (st : CalcState) (expr : Str) :
    (handleExpression st expr).1.vars = st.vars := by
  unfold handleExpression
  cases h1 : tokenizeLine expr with
  | error e => simp [h1]
  | ok infixToks =>
    cases h2 : toPostfixTokens infixToks with
    | error e => simp [h1, h2]
    | ok p =>
      cases h3 : evaluatePostfix { st with postfixSeq := p } with
      | mk st2 res =>
        have hf := (evaluatePostfix_frame { st with postfixSeq := p }).1
        rw [h3] at hf
        cases res <;> simp [h1, h2, h3] <;> simpa using hf

/-- A failing `handle_expression` leaves `self.total` unchanged. -/
theorem handleExpression_error_total {st st' : CalcState} {expr : Str} {e : Err}
    (h : handleExpression st expr = (st', .error e)) : st'.total = st.total := by
  unfold handleExpression at h
  cases h1 : tokenizeLine expr with
  | error e1 => simp only [h1] at h; simp at h; rw [← h.1]
  | ok infixToks =>
    simp only [h1] at h
    cases h2 : toPostfixTokens infixToks with
    | error e2 => simp only [h2] at h; simp at h; rw [← h.1]
    | ok p =>
      simp only [h2] at h
      cases h3 : evaluatePostfix { st with postfixSeq := p } with
      | mk st2 res =>
        have hf := (evaluatePostfix_frame { st with postfixSeq := p }).2
        rw [h3] at hf
        simp only [h3] at h
        cases res with
        | error e3 => simp at h; rw [← h.1]; simpa using hf
        | ok r => simp at h

/-- A failing `handle_variable` changes nothing and prints nothing. -/
theorem handleVariable_error {st st' : CalcState} {expr : Str} {out : List Str} {e : Err}
    (h : handleVariable st expr = (st', out, .error e)) : st' = st ∧ out = [] := by
  unfold handleVariable at h
  rcases hsp : splitOnChar '=' expr with _ | ⟨a, _ | ⟨b, _ | ⟨c, t⟩⟩⟩ <;>
    simp only [hsp] at h
  · simp at h; exact ⟨by simp [h.1], by simp [h.2.1]⟩
  · split_ifs at h with hi
    · cases hlk : lookupVar st.vars (stripSpaces a) with
      | some v => rw [hlk] at h; simp at h
      | none => rw [hlk] at h; simp at h; exact ⟨by simp [h.1], by simp [h.2.1]⟩
    · simp at h; exact ⟨by simp [h.1], by simp [h.2.1]⟩
  · split_ifs at h with hi
    · cases hpi : pyInt (match lookupVar st.vars (stripSpaces b) with
          | some v => v
          | none => stripSpaces b) with
      | some n => rw [hpi] at h; simp at h
      | none => rw [hpi] at h; simp at h; exact ⟨by simp [h.1], by simp [h.2.1]⟩
    · simp at h; exact ⟨by simp [h.1], by simp [h.2.1]⟩
  · simp at h; exact ⟨by simp [h.1], by simp [h.2.1]⟩

/-! ## The variables table only ever holds canonical decimal strings -/

/-- Every value in the variables table is the canonical decimal string of an
integer (`v == str(int(v))`). -/
def Canon (st : CalcState) : Prop :=
  ∀ kv ∈ st.vars, ∃ n : Int, kv.2 = intToString n

theorem setVar_canon {l : List (Str × Str)}
    (hl : ∀ kv ∈ l, ∃ n : Int, kv.2 = intToString n) (key : Str) (m : Int) :
    ∀ kv ∈ setVar l key (intToString m), ∃ n : Int, kv.2 = intToString n := by
  induction l with
  | nil =>
    intro kv hkv
    simp [setVar] at hkv
    subst hkv
    exact ⟨m, rfl⟩
  | cons p rest ih =>
    intro kv hkv
    rcases p with ⟨k, w⟩
    unfold setVar at hkv
    split_ifs at hkv with hk
    · rcases List.mem_cons.mp hkv with h1 | h2
      · subst h1; exact ⟨m, rfl⟩
      · exact hl _ (List.mem_cons_of_mem _ h2)
    · rcases List.mem_cons.mp hkv with h1 | h2
      · subst h1; exact hl _ (List.mem_cons_self _ _)
      · exact ih (fun q hq => hl q (List.mem_cons_of_mem _ hq)) kv h2

/-- `handle_variable` preserves canonicity of the table: the only write
stores `str(int(value))`. -/
theorem handleVariable_canon {st : CalcState} (expr : Str) (hc : Canon st) :
    Canon (handleVariable st expr).1 := by
  unfold handleVariable
  rcases hsp : splitOnChar '=' expr with _ | ⟨a, _ | ⟨b, _ | ⟨c, t⟩⟩⟩ <;>
    simp only [hsp]
  · exact hc
  · split_ifs with hi
    · cases hlk : lookupVar st.vars (stripSpaces a) with
      | some v => exact hc
      | none => exact hc
    · exact hc
  · split_ifs with hi
    · cases hpi : pyInt (match lookupVar st.vars (stripSpaces b) with
          | some v => v
          | none => stripSpaces b) with
      | some n =>
        intro kv hkv
        exact setVar_canon hc _ n kv hkv
      | none => exact hc
    · exact hc
  · exact hc

/-- A successful association-list lookup returns a stored binding. -/
theorem lookupVar_mem {l : List (Str × Str)} {k : Str} {v : Str}
    (h : lookupVar l k = some v) : (k, v) ∈ l := by
  induction l with
  | nil => cases h
  | cons p rest ih =>
    rcases p with ⟨k', v'⟩
    unfold lookupVar at h
    split_ifs at h with hk
    · injection h with h'
      subst h'
      subst hk
      exact List.mem_cons_self _ _
    · exact List.mem_cons_of_mem _ (ih h)

/-! ## Dispatcher-level lemmas -/

/-- When one of the `except` clauses of `start_calculator` catches an
exception, exactly its message is printed, the variables table and the
result register are untouched, the loop continues, and the exception is one
of the five custom ones. -/
theorem dispatch_caught_frame (st : CalcState) (expr : Str) (e : Err)
    (h : (dispatch st expr).caught = some e) :
    (dispatch st expr).printed = [errMsg e] ∧
    (dispatch st expr).state.vars = st.vars ∧
    (dispatch st expr).state.total = st.total ∧
    (dispatch st expr).ctrl = .next ∧
    (e = .invalidExpression ∨ e = .unknownCommand ∨ e = .invalidIdentifier ∨
      e = .unknownVariable ∨ e = .invalidAssignment) := by
  unfold dispatch at h ⊢
  split_ifs at h ⊢ with h1 h2 h3
  · cases hc : handleCommand expr with
    | error e' =>
      simp only [hc] at h ⊢
      split_ifs at h ⊢ with he
      simp at h
      subst h
      subst he
      simp
    | ok p =>
      rcases p with ⟨o, v⟩
      simp only [hc] at h ⊢
      split_ifs at h ⊢ <;> simp at h
  · cases hv : handleVariable st expr with
    | mk st' rest =>
      rcases rest with ⟨o, res⟩
      cases res with
      | ok u => simp only [hv] at h ⊢; simp at h
      | error e' =>
        simp only [hv] at h ⊢
        split_ifs at h ⊢ with he
        · simp at h
          subst h
          simp at he
          have hfr := handleVariable_error hv
          refine ⟨by simp [hfr.2], by simp [hfr.1], by simp [hfr.1], by simp, ?_⟩
          tauto
  · cases hx : handleExpression st expr with
    | mk st' res =>
      cases res with
      | ok r => simp only [hx] at h ⊢; simp at h
      | error e' =>
        simp only [hx] at h ⊢
        split_ifs at h ⊢ with he
        · simp at h
          subst h
          simp at he
          have hv := handleExpression_vars st expr
          rw [hx] at hv
          have ht := handleExpression_error_total hx
          refine ⟨by simp, by simpa using hv, by simpa using ht, by simp, ?_⟩
          tauto

/-- Every reachable dispatch step preserves canonicity of the variables
table. -/
theorem dispatch_canon (st : CalcState) (expr : Str) (hc : Canon st) :
    Canon (dispatch st expr).state := by
  unfold dispatch
  split_ifs with h1 h2 h3
  · exact hc
  · cases hcmd : handleCommand expr with
    | error e => simp only [hcmd]; split_ifs <;> exact hc
    | ok p =>
      rcases p with ⟨o, v⟩
      simp only [hcmd]
      split_ifs <;> exact hc
  · cases hv : handleVariable st expr with
    | mk st' rest =>
      rcases rest with ⟨o, res⟩
      have hcn := handleVariable_canon expr hc
      rw [hv] at hcn
      cases res with
      | ok u => simp only [hv]; exact hcn
      | error e => simp only [hv]; split_ifs <;> exact hcn
  · cases hx : handleExpression st expr with
    | mk st' res =>
      have hv := handleExpression_vars st expr
      rw [hx] at hv
      have hcn : Canon st' := by
        intro kv hkv
        exact hc kv (hv ▸ hkv)
      cases res with
      | ok r => simp only [hx]; exact hcn
      | error e => simp only [hx]; split_ifs <;> exact hcn

/-! ## The claims -/

/-- C1 (amended): Division in expression evaluation uses floor semantics —
the `/` operator computes `Int.fdiv` (Python `//`), so `7/2` prints 3 and
`(0-7)/2` prints -4 (floor, not truncation, on a negative dividend).  The
input line `-7/2`, however, prints -3, not -4: the leading `-` is a separate
token of lower priority than `/`, so the program computes `0 - (7 // 2)`. -/
theorem c1_floor_division :
    (run1 "7/2").printed = [intToString 3] ∧
    (run1 "(0-7)/2").printed = [intToString (-4)] ∧
    (run1 "-7/2").printed = [intToString (-3)] ∧
    (∀ a b : Int, pushFor ['/'] a b = [Int.fdiv a b]) := by
  refine ⟨by decide, by decide, by decide, fun a b => rfl⟩

/-- C1: counterexample to the claim as stated — evaluating the input line
`-7/2` prints -3, not -4. -/
theorem c1_counterexample :
    (run1 "-7/2").printed = [intToString (-3)] ∧
    (run1 "-7/2").printed ≠ [intToString (-4)] := by
  refine ⟨by decide, by decide⟩

/-- C1: witness instantiating the universally quantified conjunct. -/
theorem c1_witness : pushFor ['/'] (-7) 2 = [Int.fdiv (-7) 2] :=
  c1_floor_division.2.2.2 (-7) 2

/-- C2: Exponentiation is left-associative — `^` has priority 3, an incoming
operator whose priority is less than or equal to the top-of-stack priority
(including `^` against `^`) pops the top to the output before being pushed,
the conversion of `2^3^2` therefore yields postfix `2 3 ^ 2 ^`, and the line
`2^3^2` prints 64, not 512. -/
theorem c2_left_assoc_pow :
    priority ['^'] = some 3 ∧
    (∀ top pt rest out, priority top = some pt → 3 ≤ pt →
      popWhileGE 3 (top :: rest) out = popWhileGE 3 rest (out ++ [top])) ∧
    toPostfixTokens [['2'], ['^'], ['3'], ['^'], ['2']] =
      .ok [['2'], ['3'], ['^'], ['2'], ['^']] ∧
    (run1 "2^3^2").printed = [intToString 64] ∧
    (run1 "2^3^2").printed ≠ [intToString 512] := by
  refine ⟨rfl, ?_, by rfl, by decide, by decide⟩
  intro top pt rest out h1 h2
  rw [popWhileGE]
  simp only [h1]
  rw [if_pos h2]

/-- C2: witness instantiating the universally quantified conjunct. -/
theorem c2_witness : popWhileGE 3 [['^']] [] = popWhileGE 3 [] ([] ++ [['^']]) :=
  c2_left_assoc_pow.2.1 ['^'] 3 [] [] rfl (le_refl 3)

/-- C3: Every maximal run of two or more `+`/`-` characters is folded into a
single token — sign characters only occur in all-sign fields of the split, a
sign field of length at least 2 folds to `-` exactly when its `-` count is
odd (else `+`), a lone `+` or `-` (indeed any single-character token) passes
through unchanged, and consequently `1+-2` prints -1 and `1--2` prints 3. -/
theorem c3_sign_run_folding :
    (∀ s t, t ∈ splitRuns s → ('+' ∈ t ∨ '-' ∈ t) → ∀ c ∈ t, c = '+' ∨ c = '-') ∧
    (∀ t, t ≠ [] → (∀ c ∈ t, c = '+' ∨ c = '-') → 2 ≤ t.length →
      tokenCheck t = .ok (if t.count '-' % 2 = 1 then ['-'] else ['+'])) ∧
    (∀ c, tokenCheck [c] = .ok [c]) ∧
    (run1 "1+-2").printed = [intToString (-1)] ∧
    (run1 "1--2").printed = [intToString 3] := by
  refine ⟨?_, fun t h1 h2 h3 => tokenCheck_signs h1 h2 h3, tokenCheck_single,
    by decide, by decide⟩
  intro s t ht hsign c hc
  obtain ⟨hne, hhom⟩ := splitRuns_homog s t ht
  rcases hsign with hx | hx
  · exact charClass_eq_sign ((hhom c hc '+' hx).trans (by decide))
  · exact charClass_eq_sign ((hhom c hc '-' hx).trans (by decide))

/-- C3: witness instantiating the fold conjunct at the run `+-`. -/
theorem c3_witness :
    tokenCheck ['+', '-'] =
      .ok (if (['+', '-'] : Str).count '-' % 2 = 1 then ['-'] else ['+']) :=
  c3_sign_run_folding.2.1 ['+', '-'] (by decide) (by decide) (by decide)

/-- C4: Both kinds of unmatched parenthesis fail with InvalidExpression —
the lines `(1+2` and `1+2)` each print exactly the `Invalid expression`
message, processing `)` when no `(` is in the operator stack raises
`InvalidExpressionError`, and a successful conversion never leaves a `(` in
the final postfix output. -/
theorem c4_unmatched_parens :
    (run1 "(1+2").caught = some .invalidExpression ∧
    (run1 "(1+2").printed = [errMsg .invalidExpression] ∧
    (run1 "1+2)").caught = some .invalidExpression ∧
    (run1 "1+2)").printed = [errMsg .invalidExpression] ∧
    (∀ toks stack out : List Str, ['('] ∉ stack →
      i2pLoop ([')'] :: toks) stack out = .error .invalidExpression) ∧
    (∀ infixToks p : List Str, toPostfixTokens infixToks = .ok p → ['('] ∉ p) := by
  refine ⟨by decide, by decide, by decide, by decide,
    fun toks stack out h => i2pLoop_rparen_no_open h,
    fun infixToks p h => toPostfixTokens_no_open h⟩

/-- C4: witness instantiating the `)`-with-empty-stack conjunct. -/
theorem c4_witness : i2pLoop [[')']] [] [] = .error .invalidExpression :=
  c4_unmatched_parens.2.2.2.2.1 [] [] [] (by decide)

/-- C5: A token of two or more characters from `*`/`/`/`^` (adjacent
multiplicative or power operators with no operand between) fails tokenization
with InvalidExpression; in particular `1**2` and `1//2` each print exactly
the `Invalid expression` message. -/
theorem c5_adjacent_mul_operators :
    (∀ t : Str, 2 ≤ t.length → (∀ c ∈ t, c = '*' ∨ c = '/' ∨ c = '^') →
      tokenCheck t = .error .invalidExpression) ∧
    (∀ s : Str,
      (∃ t ∈ splitRuns (dropSpaces s), 2 ≤ t.length ∧ ∀ c ∈ t, c = '*' ∨ c = '/' ∨ c = '^') →
      tokenizeLine s = .error .invalidExpression) ∧
    (run1 "1**2").caught = some .invalidExpression ∧
    (run1 "1**2").printed = [errMsg .invalidExpression] ∧
    (run1 "1//2").caught = some .invalidExpression ∧
    (run1 "1//2").printed = [errMsg .invalidExpression] := by
  refine ⟨fun t h1 h2 => tokenCheck_mulops h1 h2,
    fun s h => tokenizeLine_error_of_mul_run h, by decide, by decide, by decide, by decide⟩

/-- C5: witness instantiating the token conjunct at the run `**`. -/
theorem c5_witness : tokenCheck ['*', '*'] = .error .invalidExpression :=
  c5_adjacent_mul_operators.1 ['*', '*'] (by decide) (by decide)

/-- C6: For every operator token the evaluator pops `b` (the top), then
attempts to pop `a`, and uses `a = 0` when the stack is empty at that point;
the postfix sequence `5 -` evaluates to `0 - 5 = -5`, and the single-token
line `-5` prints -5. -/
theorem c6_pop_b_then_a_default_zero :
    (∀ (vars : List (Str × Str)) (rest : List Str) (ch : Str) (b a : Int) (s : List Int),
      pyInStr ch opsStr = true →
      evalLoop vars (ch :: rest) (b :: a :: s) = evalLoop vars rest (pushFor ch a b ++ s)) ∧
    (∀ (vars : List (Str × Str)) (rest : List Str) (ch : Str) (b : Int),
      pyInStr ch opsStr = true →
      evalLoop vars (ch :: rest) [b] = evalLoop vars rest (pushFor ch 0 b)) ∧
    evalLoop [] [['5'], ['-']] [] = .ok [-5] ∧
    (run1 "-5").printed = [intToString (-5)] := by
  refine ⟨fun vars rest ch b a s h => evalLoop_op_two h,
    fun vars rest ch b h => evalLoop_op_one h, by rfl, by decide⟩

/-- C6: witness instantiating the one-value-stack conjunct at postfix `5 -`. -/
theorem c6_witness : evalLoop [] [['-']] [5] = evalLoop [] [] (pushFor ['-'] 0 5) :=
  c6_pop_b_then_a_default_zero.2.1 [] [] ['-'] 5 (by decide)

/-- C7: Whenever processing an input line ends with one of the five custom
errors being caught, exactly that error message is printed, the variables
table and the result register are unchanged, and the loop continues. -/
theorem c7_caught_error_one_message_no_mutation (st : CalcState) (raw : Str) (e : Err)
    (h : (processLine st raw).caught = some e) :
    (processLine st raw).printed = [errMsg e] ∧
    (processLine st raw).state.vars = st.vars ∧
    (processLine st raw).state.total = st.total ∧
    (processLine st raw).ctrl = .next ∧
    (e = .invalidExpression ∨ e = .unknownCommand ∨ e = .invalidIdentifier ∨
      e = .unknownVariable ∨ e = .invalidAssignment) := by
  unfold processLine at h ⊢
  exact dispatch_caught_frame st (pyStrip raw) e h

/-- C7: witness — the unknown command `/foo` from the initial state. -/
theorem c7_witness :
    (processLine initState ("/foo".data)).printed = [errMsg .unknownCommand] ∧
    (processLine initState ("/foo".data)).state.vars = initState.vars ∧
    (processLine initState ("/foo".data)).state.total = initState.total ∧
    (processLine initState ("/foo".data)).ctrl = .next ∧
    (Err.unknownCommand = .invalidExpression ∨ Err.unknownCommand = .unknownCommand ∨
      Err.unknownCommand = .invalidIdentifier ∨ Err.unknownCommand = .unknownVariable ∨
      Err.unknownCommand = .invalidAssignment) :=
  c7_caught_error_one_message_no_mutation initState ("/foo".data) .unknownCommand (by decide)

/-- C8 (amended): The postfix sequence is reinitialised to empty whenever
`evaluate_postfix` runs to completion successfully, but it is not cleared
when evaluation fails: after the line `z+1` (with `z` unassigned) fails with
UnknownVariable, the converted postfix `z 1 +` remains stored in the session
state across to the next input line. -/
theorem c8_postfix_cleared_on_success :
    (∀ (st st2 : CalcState) (r : Int),
      evaluatePostfix st = (st2, .ok r) → st2.postfixSeq = []) ∧
    (run1 "z+1").caught = some .unknownVariable ∧
    (run1 "z+1").state.postfixSeq = [['z'], ['1'], ['+']] := by
  refine ⟨fun st st2 r h => evaluatePostfix_ok_clears h, by decide, by decide⟩

/-- C8: counterexample to the claim as stated — after the failing line `z+1`
the postfix sequence is retained (nonempty), not reset to empty. -/
theorem c8_counterexample :
    (run1 "z+1").caught = some .unknownVariable ∧
    (run1 "z+1").state.postfixSeq ≠ [] := by
  refine ⟨by decide, by decide⟩

/-- C8: witness — a successful evaluation leaves an empty postfix sequence. -/
theorem c8_witness : (⟨0, [], []⟩ : CalcState).postfixSeq = [] :=
  c8_postfix_cleared_on_success.1 ⟨0, [], [['5']]⟩ ⟨0, [], []⟩ 5 (by rfl)

/-- C9 (amended): Processing a single non-empty line either completes
normally or raises one of the five custom errors, except that some inputs
crash the program on a Python built-in exception that no handler catches:
`()` and a lone `+` die on `IndexError` from the evaluator unguarded pops,
and `1+a_b` dies on `KeyError` from the priority-table lookup (the input `_`,
by contrast, is pushed through the empty-stack branch of the converter and
fails with the caught UnknownVariable). -/
theorem c9_uncaught_exceptions :
    (run1 "()").ctrl = .crash .indexError ∧
    (run1 "+").ctrl = .crash .indexError ∧
    (run1 "1+a_b").ctrl = .crash .keyError ∧
    (run1 "_").caught = some .unknownVariable ∧
    (run1 "_").ctrl = .next := by
  refine ⟨by decide, by decide, by decide, by decide, by decide⟩

/-- C9: counterexample to the claim as stated — the line `()` neither
completes normally nor raises one of the five custom errors: it dies on an
uncaught IndexError. -/
theorem c9_counterexample :
    (run1 "()").ctrl = .crash .indexError ∧ (run1 "()").caught = none := by
  refine ⟨by decide, by decide⟩

/-- C10: In every reachable session state every stored variable value is the
canonical decimal string of an integer — the invariant holds initially, is
preserved by processing any line, and makes `int(...)` succeed on every
looked-up value. -/
theorem c10_canonical_variable_values :
    Canon initState ∧
    (∀ (st : CalcState) (raw : Str), Canon st → Canon (processLine st raw).state) ∧
    (∀ (st : CalcState) (name v : Str), Canon st → lookupVar st.vars name = some v →
      ∃ n : Int, pyInt v = some n ∧ v = intToString n) := by
  refine ⟨?_, ?_, ?_⟩
  · intro kv hkv
    exact absurd hkv (List.not_mem_nil kv)
  · intro st raw hc
    unfold processLine
    exact dispatch_canon st (pyStrip raw) hc
  · intro st name v hc hlk
    obtain ⟨n, hn⟩ := hc (name, v) (lookupVar_mem hlk)
    have hv : v = intToString n := hn
    exact ⟨n, by rw [hv]; exact pyInt_intToString n, hv⟩

/-- C10: witness — the invariant after assigning `x = 5` from a fresh
calculator. -/
theorem c10_witness : Canon (processLine initState ("x = 5".data)).state :=
  c10_canonical_variable_values.2.1 initState ("x = 5".data) c10_canonical_variable_values.1

end SmartCalc
